import Mathlib

/-!
# License encryption service

A shallow embedding of the license store, the streaming cipher engine, the
artifact binding registry and the secure-link handlers of the service
(`utils.go`, `handlers.go`, `main.go`), followed by theorems about them.

Conventions of the embedding

* a byte is a `Nat`, a byte string a `List Nat`;
* a `uuid.UUID` is a `Nat` (the 128-bit value), `uuid.Nil` is `0`;
* a `time.Time` is an `Int`, the number of nanoseconds since the Unix epoch;
* Go `int` arithmetic is `Int` arithmetic wrapped to 64 bits;
* the Go maps `Licenses` and `File` and the output directory are functions
  into `Option`;
* library routines whose code is not part of the repository (AES, SHA-256,
  `uuid.Parse`, `strconv.ParseInt`, `strings.ToLower`, `Time.AddDate`,
  `filepath.Join`) are parameters, collected in `Cipher` and `Env`;
  `AddDate` is `Time.AddDate` for a process in UTC.
-/

namespace LicenseService

/-! ## Cipher engine (`utils.go`) -/

/-- A `uuid.UUID`, as the number its sixteen bytes spell. -/
abbrev UUID := Nat

/-- The zero value `uuid.Nil`. -/
def uuidNil : UUID := 0

/-- The constant `aes.BlockSize`. -/
def blockSize : Nat := 16

/-- The cryptographic primitives used by `AESEncryption` and `AESDecryption`:
`sha256` hashes the sixteen bytes of a license id into the AES key,
`encryptBlock key` and `decryptBlock key` are the block transforms of the
`cipher.Block` made by `aes.NewCipher key`. -/
structure Cipher where
  sha256 : UUID → List Nat
  encryptBlock : List Nat → List Nat → List Nat
  decryptBlock : List Nat → List Nat → List Nat

/-- Bytewise exclusive or, over the common length. -/
def xorBytes (a b : List Nat) : List Nat :=
  List.zipWith (fun x y => x ^^^ y) a b

/-- One `srcFile.Read(buffer)` with a `blockSize` buffer on the unread rest of a
file: `none` is `io.EOF`, otherwise the bytes delivered and what stays unread.
A read delivers a full buffer unless fewer bytes are left. -/
def fileRead (data : List Nat) : Option (List Nat × List Nat) :=
  if data = [] then none else some (data.take blockSize, data.drop blockSize)

/-- The buffer after `append(buffer[:n], make([]byte, blockSize-n)...)`: the
bytes read, zero-filled up to the block size. -/
def padBlock (chunk : List Nat) : List Nat :=
  chunk ++ List.replicate (blockSize - chunk.length) 0

/-- The read loop of `AESEncryption`: every block read is zero-filled, chained
with the previous ciphertext block (`prev`, at first the IV) by the CBC
encrypter and written out. The result is what the loop writes. -/
def encryptLoop (c : Cipher) (key : List Nat) (prev data : List Nat) : List Nat :=
  match _hread : fileRead data with
  | none => []
  | some (chunk, rest) =>
    let buffer := padBlock chunk
    let out := c.encryptBlock key (xorBytes buffer prev)
    out ++ encryptLoop c key out rest
termination_by data.length
decreasing_by
  unfold fileRead at _hread
  split at _hread
  · simp at _hread
  · rename_i hne
    simp only [Option.some.injEq, Prod.mk.injEq] at _hread
    have hpos : 0 < data.length := List.length_pos.mpr hne
    rw [← _hread.2, List.length_drop]
    simp only [blockSize]
    omega

/-- The read loop of `AESDecryption`: every block read is zero-filled, run
through the CBC decrypter (`prev` is the previous ciphertext block, at first
the IV) and written out. -/
def decryptLoop (c : Cipher) (key : List Nat) (prev data : List Nat) : List Nat :=
  match _hread : fileRead data with
  | none => []
  | some (chunk, rest) =>
    let buffer := padBlock chunk
    let out := xorBytes (c.decryptBlock key buffer) prev
    out ++ decryptLoop c key buffer rest
termination_by data.length
decreasing_by
  unfold fileRead at _hread
  split at _hread
  · simp at _hread
  · rename_i hne
    simp only [Option.some.injEq, Prod.mk.injEq] at _hread
    have hpos : 0 < data.length := List.length_pos.mpr hne
    rw [← _hread.2, List.length_drop]
    simp only [blockSize]
    omega

/-- The function `AESEncryption(key, srcFile, destFile)`. `iv` is the block drawn from
`rand.Reader`, `srcFile` the content of the opened upload, `destFile` tells
whether the destination is an open file (`false`: a nil `*os.File`, whose
`Write` fails). `.ok out`: the call returns nil having written `out`;
`.error`: it returns an error having written nothing. The random source and
writes to an open file are taken not to fail. -/
def AESEncryption (c : Cipher) (key : UUID) (iv : List Nat) (srcFile : List Nat)
    (destFile : Bool) : Except String (List Nat) :=
  if !destFile then .error "invalid argument"
  else .ok (iv ++ encryptLoop c (c.sha256 key) iv srcFile)

/-- The function `AESDecryption(key, srcFile, destFile)`. `rnd` is the block drawn from
`rand.Reader`, over which the stored IV is read; `srcFile` is the content of
the opened file (`none`: a nil `*os.File`), `destFile` tells whether the
destination is open. Results as for `AESEncryption`. -/
def AESDecryption (c : Cipher) (key : UUID) (rnd : List Nat)
    (srcFile : Option (List Nat)) (destFile : Bool) : Except String (List Nat) :=
  match srcFile with
  | none => .error "invalid argument"
  | some data =>
    match fileRead data with
    | none => .error "EOF"
    | some (head, rest) =>
      let iv := head ++ rnd.drop head.length
      if rest = [] then .ok []
      else if !destFile then .error "invalid argument"
      else .ok (decryptLoop c (c.sha256 key) iv rest)

/-! ## Data model (`utils.go`, `main.go`) -/

def TIME_BOUND : String := "time-bound"

def USAGE_LIMITED : String := "usage-limited"

def OUTPUTDIR : String := "./encrypted_files"

/-- The zero `time.Time` (1 January of year 1, UTC), in nanoseconds from the
Unix epoch. -/
def zeroTime : Int := -62135596800000000000

/-- The struct `License`. The field `Type` is spelt `Type_`. -/
structure License where
  Key : UUID
  Type_ : String
  ExpiryDate : Int
  TokensLeft : Int
deriving DecidableEq, Repr

/-- The zero value of `License`, which a lookup of an absent key yields. -/
def zeroLicense : License :=
  { Key := uuidNil, Type_ := "", ExpiryDate := zeroTime, TokensLeft := 0 }

/-- The struct `LicenseRequest`. -/
structure LicenseRequest where
  Type_ : String
  Expiry : Int
deriving DecidableEq, Repr

/-- The struct `URLRequest`. -/
structure URLRequest where
  FilePath : String
  LicenseKey : String
deriving DecidableEq, Repr

/-- The part of a `multipart.FileHeader` the handlers use: the file name and
the uploaded bytes. -/
structure FileHeader where
  Filename : String
  content : List Nat
deriving DecidableEq, Repr

/-- The mutable state of the service: the global maps `Licenses` and `File`
of `main.go`, and `disk`, the files of the machine by path. -/
structure State where
  Licenses : UUID → Option License
  File : String → Option UUID
  disk : String → Option (List Nat)

/-- The state at start-up: both maps empty, and no file yet written. -/
def emptyState : State :=
  { Licenses := fun _ => none, File := fun _ => none, disk := fun _ => none }

/-- The map assignment `m[k] = v`. -/
def mapSet {κ ν : Type} [DecidableEq κ] (m : κ → Option ν) (k : κ) (v : ν) :
    κ → Option ν :=
  fun x => if x = k then some v else m x

/-- Library routines the handlers call: `uuidParse s` is the value and the
success of `uuid.Parse(s)`, `parseInt s` those of
`strconv.ParseInt(s, 10, 64)`, `toLower` is `strings.ToLower`,
`addDate t d` is `t.AddDate(0, 0, d)` and `join` is `filepath.Join`. -/
structure Env where
  uuidParse : String → UUID × Bool
  parseInt : String → Int × Bool
  toLower : String → String
  addDate : Int → Int → Int
  join : String → String → String

/-- Two's complement wrap-around of a Go `int` (64 bits). -/
def wrap64 (x : Int) : Int :=
  (x + 9223372036854775808) % 18446744073709551616 - 9223372036854775808

/-- The method `Time.Sub`: the difference in nanoseconds, saturated to the range of
`time.Duration`. -/
def timeSub (t u : Int) : Int :=
  if t - u < -9223372036854775808 then -9223372036854775808
  else if t - u > 9223372036854775807 then 9223372036854775807
  else t - u

/-- The method `Time.Unix`: whole seconds since the epoch, rounded down. -/
def unix (t : Int) : Int := t / 1000000000

/-- The method `Time.AddDate(0, 0, days)` on a time in UTC, where a calendar
day is 86400 seconds: `time.Date` adds the days to the seconds counted from
year 1 (62135596800 seconds before the Unix epoch) in 64-bit arithmetic, which
wraps around; the nanoseconds within the second stay. -/
def AddDate (t days : Int) : Int :=
  (wrap64 (t / 1000000000 + 62135596800 + days * 86400) - 62135596800) * 1000000000
    + t % 1000000000

/-- Scan of `filepath.Ext` from the end of the path: `rev` is what is still to
be scanned, last character first, `acc` what has been passed over. -/
def extScan : List Char → List Char → List Char
  | [], _ => []
  | ch :: rev, acc =>
    if ch = '/' then []
    else if ch = '.' then ch :: acc
    else extScan rev (ch :: acc)

/-- The function `filepath.Ext`: the suffix from the last dot of the last path
element, or the empty string. -/
def Ext (path : String) : String := String.mk (extScan path.data.reverse [])

/-- The function `strings.TrimSuffix`. -/
def TrimSuffix (s suffix : String) : String :=
  if s.data.drop (s.data.length - suffix.data.length) = suffix.data then
    String.mk (s.data.take (s.data.length - suffix.data.length))
  else s

/-- The function `ValidateLicenseKey(key)` at the instant `now` read by `time.Now()`: the
record returned and the error, `none` for nil. -/
def ValidateLicenseKey (Licenses : UUID → Option License) (key : UUID) (now : Int) :
    License × Option String :=
  match Licenses key with
  | none => (zeroLicense, some "License key doesn't exist")
  | some licenseData =>
    if licenseData.Type_ = TIME_BOUND ∧ timeSub licenseData.ExpiryDate now < 0 then
      (licenseData, some "License key expired")
    else if licenseData.Type_ = USAGE_LIMITED ∧ licenseData.TokensLeft ≤ 0 then
      (licenseData, some "License key expired")
    else (licenseData, none)

/-! ## Request handlers (`handlers.go`)

A handler is a function from the state and its inputs to the new state and
the list of the responses it writes, in the order of the writes. None of the
handlers returns after writing an error response, so several responses may be
written; gin keeps the status of the first (`sent`). -/

/-- One response written through the `gin.Context`, with its status code:
`abort` the bare status gin itself writes (`BindJSON` aborting with 400, the
recovery middleware with 500), `message` an `IndentedJSON` of a message,
`license` an `IndentedJSON` of a license record, `link` that of a secure
URL, `attachment` a `FileAttachment`, `redirect` a `Redirect`. -/
inductive Reply where
  | abort (status : Nat)
  | message (status : Nat) (text : String)
  | license (status : Nat) (body : License)
  | link (status : Nat) (URL : String)
  | attachment (status : Nat) (path name : String)
  | redirect (status : Nat) (location : String)
deriving DecidableEq, Repr

/-- The status code a response is written with. -/
def Reply.status : Reply → Nat
  | .abort s => s
  | .message s _ => s
  | .license s _ => s
  | .link s _ => s
  | .attachment s _ _ => s
  | .redirect s _ => s

/-- The response whose status and headers reach the client: once a response
is written, gin refuses later status codes and headers, so the first write
decides them; the bodies of later writes are appended to it. -/
def sent (replies : List Reply) : Option Reply := replies.head?

/-- The response of `c.FileAttachment(path, name)`: the file if there is one,
404 otherwise. -/
def fileAttachment (disk : String → Option (List Nat)) (path name : String) : Reply :=
  .attachment (if (disk path).isSome then 200 else 404) path name

/-- What `GenerateLicense` reads: the outcome of `c.BindJSON(&reqBody)`, the
identifier `uuid.New()` draws and the instant `time.Now()` gives. -/
structure GenerateLicenseInput where
  bindErr : Bool
  reqBody : LicenseRequest
  newKey : UUID
  now : Int

/-- The handler `GenerateLicense`. -/
def GenerateLicense (env : Env) (st : State) (i : GenerateLicenseInput) :
    State × List Reply :=
  let r1 := if i.bindErr then
      [Reply.abort 400, Reply.message 500 "Unable to parse request body"] else []
  let licenseType := env.toLower i.reqBody.Type_
  let r2 := if licenseType ≠ TIME_BOUND ∧ licenseType ≠ USAGE_LIMITED then
      [Reply.message 400
        "Unsupported license type. Specify 'type' as 'time-bound' or 'usage-limited'"]
    else []
  let r3 := if i.reqBody.Expiry ≤ 0 then
      [Reply.message 400
        "Invalid expiry. Please provide either days (e.g., 30) or tokens (e.g., 20)"]
    else []
  let newLicense : License :=
    if licenseType = TIME_BOUND then
      { Key := i.newKey, Type_ := licenseType,
        ExpiryDate := env.addDate i.now i.reqBody.Expiry, TokensLeft := 0 }
    else
      { Key := i.newKey, Type_ := licenseType,
        ExpiryDate := zeroTime, TokensLeft := i.reqBody.Expiry }
  ({ st with Licenses := mapSet st.Licenses newLicense.Key newLicense },
   r1 ++ r2 ++ r3 ++ [Reply.license 201 newLicense])

/-- What `EncryptFile` reads: the outcome of `c.ShouldBind(&reqForm)` and the
form it leaves (`File` is `none` for a nil `*multipart.FileHeader`), whether
`os.Create` fails, the block drawn from `rand.Reader` and the instant
`time.Now()` gives. -/
structure EncryptFileInput where
  bindErr : Bool
  LicenseKey : String
  File : Option FileHeader
  createErr : Bool
  iv : List Nat
  now : Int

/-- The handler `EncryptFile`. With a nil file header `reqForm.File.Open()`
dereferences nil and the handler ends there, gin recovering with status 500.
An upload that is present is taken to open without error. -/
def EncryptFile (env : Env) (c : Cipher) (st : State) (i : EncryptFileInput) :
    State × List Reply :=
  let r1 := if i.bindErr then [Reply.message 400 "Couldn't parse request."] else []
  let key := (env.uuidParse i.LicenseKey).1
  let r2 := if (env.uuidParse i.LicenseKey).2 then []
    else [Reply.message 400 "Couldn't parse license key."]
  let licenseData := (ValidateLicenseKey st.Licenses key i.now).1
  let r3 := match (ValidateLicenseKey st.Licenses key i.now).2 with
    | some e => [Reply.message 403 e]
    | none => []
  match i.File with
  | none => (st, r1 ++ r2 ++ r3 ++ [Reply.abort 500])
  | some fh =>
    let FileName := TrimSuffix fh.Filename (Ext fh.Filename) ++ ".enc"
    let encryptedFileName := env.join OUTPUTDIR FileName
    let disk1 := if i.createErr then st.disk else mapSet st.disk encryptedFileName []
    let r4 := if i.createErr then [Reply.message 400 "unable to create the dest file"]
      else []
    let disk2 := match AESEncryption c key i.iv fh.content (!i.createErr) with
      | .ok out => mapSet disk1 encryptedFileName out
      | .error _ => disk1
    let r5 := match AESEncryption c key i.iv fh.content (!i.createErr) with
      | .ok _ => []
      | .error _ => [Reply.message 400 "Error occurred while encrypting file"]
    let Licenses1 := if licenseData.Type_ = USAGE_LIMITED then
        mapSet st.Licenses key
          { licenseData with TokensLeft := wrap64 (licenseData.TokensLeft - 1) }
      else st.Licenses
    ({ Licenses := Licenses1, File := mapSet st.File FileName key, disk := disk2 },
     r1 ++ r2 ++ r3 ++ r4 ++ r5 ++ [fileAttachment disk2 encryptedFileName FileName])

/-- What `GenerateSecureURL` reads: the outcome of `c.ShouldBindJSON(&reqBody)`,
and the instants the two calls of `time.Now()` give, `now` inside
`ValidateLicenseKey` and `now2` for the expiry of the link. -/
structure GenerateSecureURLInput where
  bindErr : Bool
  reqBody : URLRequest
  now : Int
  now2 : Int

/-- The handler `GenerateSecureURL`. -/
def GenerateSecureURL (env : Env) (st : State) (i : GenerateSecureURLInput) :
    State × List Reply :=
  let r1 := if i.bindErr then [Reply.message 500 "Unable to parse request body"] else []
  let licenseKey := i.reqBody.LicenseKey
  let filePath := i.reqBody.FilePath
  let r2 := if licenseKey = "" ∨ filePath = "" then
      [Reply.message 400
        "Mandatory fields are not present. licensekey, filepath are required"]
    else []
  let key := (env.uuidParse licenseKey).1
  let r3 := if (env.uuidParse licenseKey).2 then []
    else [Reply.message 400 "Couldn't parse license key."]
  let r4 := match (ValidateLicenseKey st.Licenses key i.now).2 with
    | some e => [Reply.message 403 e]
    | none => []
  let expiry := unix (i.now2 + 3600000000000)
  let URL := "http://localhost:3000/sles/api/v1/secure-file?licensekey=" ++ licenseKey
    ++ "&filepath=" ++ filePath ++ "&expires=" ++ toString expiry
  (st, r1 ++ r2 ++ r3 ++ r4 ++ [Reply.link 201 URL])

/-- What `DecryptFile` reads: the two query parameters, whether `os.Create`
fails, the block drawn from `rand.Reader` and the instant `time.Now()`
gives. -/
structure DecryptFileInput where
  licensekey : String
  filepath : String
  createErr : Bool
  rnd : List Nat
  now : Int

/-- The handler `DecryptFile`. `os.Open` fails when there is no file of that
path; the source file, once open, is the file `os.Create` truncates when both
paths are the same. The disk holds regular files only: a path that names a
directory, which `os.Open` would open, is not modelled. -/
def DecryptFile (env : Env) (c : Cipher) (st : State) (i : DecryptFileInput) :
    State × List Reply :=
  let r1 := if i.licensekey = "" ∨ i.filepath = "" then
      [Reply.message 400 "licensekey, filepath are required"] else []
  let key := (env.uuidParse i.licensekey).1
  let r2 := if (env.uuidParse i.licensekey).2 then []
    else [Reply.message 400 "Couldn't parse license key."]
  let licenseData := (ValidateLicenseKey st.Licenses key i.now).1
  let r3 := match (ValidateLicenseKey st.Licenses key i.now).2 with
    | some e => [Reply.message 403 e]
    | none => []
  let r4 := if (st.File i.filepath).getD uuidNil ≠ key then
      [Reply.message 403 "Incorrect key"] else []
  let FileName := TrimSuffix i.filepath (Ext i.filepath) ++ ".dec"
  let decryptedFileName := env.join OUTPUTDIR FileName
  let srcName := env.join OUTPUTDIR i.filepath
  let r5 := if (st.disk srcName).isSome then []
    else [Reply.message 400 "unable to open the encrypted file"]
  let disk1 := if i.createErr then st.disk else mapSet st.disk decryptedFileName []
  let r6 := if i.createErr then [Reply.message 400 "unable to create the decryption file"]
    else []
  let srcFile := if (st.disk srcName).isSome then disk1 srcName else none
  let disk2 := match AESDecryption c key i.rnd srcFile (!i.createErr) with
    | .ok out => if i.createErr then disk1 else mapSet disk1 decryptedFileName out
    | .error _ => disk1
  let r7 := match AESDecryption c key i.rnd srcFile (!i.createErr) with
    | .ok _ => []
    | .error _ => [Reply.message 400 "Error occurred while decrypting file"]
  let Licenses1 := if licenseData.Type_ = USAGE_LIMITED then
      mapSet st.Licenses key
        { licenseData with TokensLeft := wrap64 (licenseData.TokensLeft - 1) }
    else st.Licenses
  ({ Licenses := Licenses1, File := st.File, disk := disk2 },
   r1 ++ r2 ++ r3 ++ r4 ++ r5 ++ r6 ++ r7 ++ [fileAttachment disk2 decryptedFileName FileName])

/-- What `SecureFileAccess` reads: the three query parameters and the instants
the two calls of `time.Now()` give, `now` for the check of the link and
`now2` inside `ValidateLicenseKey`. -/
structure SecureFileAccessInput where
  licensekey : String
  filepath : String
  expires : String
  now : Int
  now2 : Int

/-- The handler `SecureFileAccess`. -/
def SecureFileAccess (env : Env) (st : State) (i : SecureFileAccessInput) :
    State × List Reply :=
  let r1 := if i.licensekey = "" ∨ i.filepath = "" ∨ i.expires = "" then
      [Reply.message 400
        "Mandatory fields are not present. licensekey, filepath, expires are required"]
    else []
  let expirationTime := (env.parseInt i.expires).1
  let r2 := if (env.parseInt i.expires).2 then []
    else [Reply.message 400 "Couldn't parse timestamp."]
  let r3 := if unix i.now > expirationTime then
      [Reply.message 401 "Link Expired. Please request new one."] else []
  let key := (env.uuidParse i.licensekey).1
  let r4 := if (env.uuidParse i.licensekey).2 then []
    else [Reply.message 400 "Couldn't parse license key."]
  let r5 := match (ValidateLicenseKey st.Licenses key i.now2).2 with
    | some e => [Reply.message 401 e]
    | none => []
  let redirectURL := "http://localhost:3000/sles/api/v1/decrypt-file?licensekey="
    ++ i.licensekey ++ "&filepath=" ++ i.filepath
  (st, r1 ++ r2 ++ r3 ++ r4 ++ r5 ++ [Reply.redirect 302 redirectURL])

/-- A request to one of the five state-relevant routes of `main.go`. -/
inductive Request where
  | generateLicense (i : GenerateLicenseInput)
  | encryptFile (i : EncryptFileInput)
  | decryptFile (i : DecryptFileInput)
  | generateSecureURL (i : GenerateSecureURLInput)
  | secureFileAccess (i : SecureFileAccessInput)

/-- The router: the handler of the route, applied to the state. -/
def handle (env : Env) (c : Cipher) (st : State) : Request → State × List Reply
  | .generateLicense i => GenerateLicense env st i
  | .encryptFile i => EncryptFile env c st i
  | .decryptFile i => DecryptFile env c st i
  | .generateSecureURL i => GenerateSecureURL env st i
  | .secureFileAccess i => SecureFileAccess env st i

/-- The state after a sequence of requests, served one after the other. -/
def run (env : Env) (c : Cipher) (st : State) : List Request → State
  | [] => st
  | r :: rs => run env c (handle env c st r).1 rs

/-! ## A concrete environment, for evaluating the handlers -/

/-- Value of a hexadecimal digit. -/
def hexDigit (ch : Char) : Option Nat :=
  if '0' ≤ ch ∧ ch ≤ '9' then some (ch.toNat - '0'.toNat)
  else if 'a' ≤ ch ∧ ch ≤ 'f' then some (ch.toNat - 'a'.toNat + 10)
  else if 'A' ≤ ch ∧ ch ≤ 'F' then some (ch.toNat - 'A'.toNat + 10)
  else none

/-- Value of a string of digits in the given base, most significant first. -/
def digitsValue (base : Nat) (digit : Char → Option Nat) : List Char → Nat → Option Nat
  | [], acc => some acc
  | ch :: cs, acc =>
    match digit ch with
    | some d => digitsValue base digit cs (base * acc + d)
    | none => none

/-- The function `uuid.Parse` restricted to the canonical 36-character form
`xxxxxxxx-xxxx-xxxx-xxxx-xxxxxxxxxxxx`, which is the form the examples use.
The other forms `uuid.Parse` accepts (32 digits, the `urn:uuid:` form, braces)
are refused here, and a refused text yields `uuid.Nil`, where `uuid.Parse`
may return a partly filled identifier along with its error. -/
def exampleUUIDParse (s : String) : UUID × Bool :=
  let cs := s.data
  if cs.length = 36 ∧ cs.get? 8 = some '-' ∧ cs.get? 13 = some '-'
      ∧ cs.get? 18 = some '-' ∧ cs.get? 23 = some '-' then
    match digitsValue 16 hexDigit
        (cs.take 8 ++ (cs.drop 9).take 4 ++ (cs.drop 14).take 4 ++ (cs.drop 19).take 4
          ++ cs.drop 24) 0 with
    | some v => (v, true)
    | none => (uuidNil, false)
  else (uuidNil, false)

/-- Value of a decimal digit. -/
def decDigit (ch : Char) : Option Nat :=
  if '0' ≤ ch ∧ ch ≤ '9' then some (ch.toNat - '0'.toNat) else none

/-- The function `strconv.ParseInt(s, 10, 64)`: an optional sign and decimal digits; on
a syntax error the value is 0, out of range it is the nearest bound. -/
def exampleParseInt (s : String) : Int × Bool :=
  let body : List Char := match s.data with
    | '-' :: cs => cs
    | '+' :: cs => cs
    | cs => cs
  let neg : Bool := match s.data with
    | '-' :: _ => true
    | _ => false
  if body = [] then (0, false)
  else match digitsValue 10 decDigit body 0 with
    | none => (0, false)
    | some v =>
      let x : Int := if neg then -(v : Int) else (v : Int)
      if x < -9223372036854775808 then (-9223372036854775808, false)
      else if x > 9223372036854775807 then (9223372036854775807, false)
      else (x, true)

/-- An environment for examples: identifiers in the canonical form, decimal
timestamps, lower-casing of the ASCII letters only (other characters are
left as they are), the clock of a process in UTC, and `filepath.Join` of the
output directory with a plain file name. -/
def exampleEnv : Env where
  uuidParse := exampleUUIDParse
  parseInt := exampleParseInt
  toLower := fun s => String.mk (s.data.map Char.toLower)
  addDate := AddDate
  join := fun dir name =>
    (if dir = "./encrypted_files" then "encrypted_files" else dir) ++ "/" ++ name

/-- A toy block cipher for examples: a block is masked with the first key byte
and reversed. The key of an identifier is its low byte, repeated. -/
def exampleCipher : Cipher where
  sha256 := fun id => List.replicate 32 (id % 256)
  encryptBlock := fun key block => (block.map (fun b => b ^^^ key.headD 0)).reverse
  decryptBlock := fun key block => block.reverse.map (fun b => b ^^^ key.headD 0)

/-- The bytes of the text `Hello world`. -/
def helloWorld : List Nat := [72, 101, 108, 108, 111, 32, 119, 111, 114, 108, 100]

/-- A sample block of sixteen bytes, used as initialisation vector. -/
def sampleIV : List Nat := [1, 2, 3, 4, 5, 6, 7, 8, 9, 10, 11, 12, 13, 14, 15, 16]

/-- A consuming operation under the license `key`: an `EncryptFile` or
`DecryptFile` request that binds, carries the text of `key` as its license key
and, for `EncryptFile`, an upload. -/
def consumes (env : Env) (key : UUID) : Request → Prop
  | .encryptFile i =>
    i.bindErr = false ∧ env.uuidParse i.LicenseKey = (key, true) ∧ i.File.isSome = true
  | .decryptFile i =>
    i.licensekey ≠ "" ∧ i.filepath ≠ "" ∧ env.uuidParse i.licensekey = (key, true)
  | _ => False

/-- The text of the identifier of value 10. -/
def keyA : String := "00000000-0000-0000-0000-00000000000a"

/-- The text of the identifier of value 11. -/
def keyB : String := "00000000-0000-0000-0000-00000000000b"

/-- A time-bound license under `keyA`, expiring at the instant 1000. -/
def licenseA : License :=
  { Key := 10, Type_ := TIME_BOUND, ExpiryDate := 1000, TokensLeft := 0 }

/-- A usage-limited license under `keyB`, with two uses left. -/
def licenseB : License :=
  { Key := 11, Type_ := USAGE_LIMITED, ExpiryDate := zeroTime, TokensLeft := 2 }

/-- A store holding `licenseA` and `licenseB`, the artifact `report.enc`
bound to `licenseA`, and its file of one IV block and one cipher block. -/
def exampleState : State :=
  { Licenses := mapSet (mapSet emptyState.Licenses 10 licenseA) 11 licenseB,
    File := mapSet emptyState.File "report.enc" 10,
    disk := mapSet emptyState.disk "encrypted_files/report.enc"
      (sampleIV ++ [26, 5, 4, 7, 6, 101, 108, 113, 109, 122, 44, 96, 98, 101, 109, 67]) }

/-- An `EncryptFile` request: `testfile.txt` holding `Hello world`, encrypted
under `keyB`. -/
def encryptRequest : EncryptFileInput :=
  { bindErr := false, LicenseKey := keyB,
    File := some { Filename := "testfile.txt", content := helloWorld },
    createErr := false, iv := sampleIV, now := 500 }

/-- A `DecryptFile` request for `report.enc`, the artifact of `licenseA`,
presenting `keyB`. -/
def decryptRequest : DecryptFileInput :=
  { licensekey := keyB, filepath := "report.enc", createErr := false,
    rnd := sampleIV, now := 500 }

/-- A `GenerateLicense` request for a usage-limited license of one use, to be
issued under the identifier of value 11. -/
def singleUseRequest : GenerateLicenseInput :=
  { bindErr := false, reqBody := { Type_ := "usage-limited", Expiry := 1 },
    newKey := 11, now := 0 }

/-- The request of the test `TestInvalidLicenseType`: the unsupported kind
`time` with magnitude 7, the identifier drawn being of value 12. -/
def invalidTypeRequest : GenerateLicenseInput :=
  { bindErr := false, reqBody := { Type_ := "time", Expiry := 7 },
    newKey := 12, now := 0 }

/-- A `SecureFileAccess` request for `report.enc` under `keyA`, with a link
expiring at the Unix second 2, redeemed at the instant `now`. -/
def linkRequest (now : Int) : SecureFileAccessInput :=
  { licensekey := keyA, filepath := "report.enc", expires := "2", now := now, now2 := 900 }

/-- An `EncryptFile` request: `report.txt` encrypted under `keyB`, while the
artifact name `report.enc` is already bound to `licenseA`. -/
def overwriteRequest : EncryptFileInput :=
  { bindErr := false, LicenseKey := keyB,
    File := some { Filename := "report.txt", content := helloWorld },
    createErr := false, iv := sampleIV, now := 500 }

/-- A `GenerateSecureURL` request for `artifact` under `keyA`, both instants
read from the clock being `now`. -/
def urlRequest (artifact : String) (now : Int) : GenerateSecureURLInput :=
  { bindErr := false, reqBody := { FilePath := artifact, LicenseKey := keyA },
    now := now, now2 := now }

/-- A request that leaves the record stored under `key` in place: any request
but a `GenerateLicense` whose freshly drawn identifier is `key` itself. -/
def keepsLicense (key : UUID) : Request → Prop
  | .generateLicense i => i.newKey ≠ key
  | _ => True

/-- The text of the identifier of value 12. -/
def keyC : String := "00000000-0000-0000-0000-00000000000c"

/-- The record `GenerateLicense` stores for `invalidTypeRequest`: a license of
the unsupported kind `time`. -/
def oddLicense : License :=
  { Key := 12, Type_ := "time", ExpiryDate := zeroTime, TokensLeft := 7 }

/-- The store after `invalidTypeRequest` is served on the empty store. -/
def oddState : State := (GenerateLicense exampleEnv emptyState invalidTypeRequest).1

/-- An `EncryptFile` request under `keyC`. -/
def oddEncryptRequest : EncryptFileInput :=
  { bindErr := false, LicenseKey := keyC,
    File := some { Filename := "testfile.txt", content := helloWorld },
    createErr := false, iv := sampleIV, now := 500 }

/-- A `DecryptFile` request under `keyC`. -/
def oddDecryptRequest : DecryptFileInput :=
  { licensekey := keyC, filepath := "testfile.enc", createErr := false,
    rnd := sampleIV, now := 500 }

theorem xorBytes_length (a b : List Nat) :
    (xorBytes a b).length = min a.length b.length := by
  simp [xorBytes]

theorem xorBytes_cancel : ∀ (a b : List Nat), a.length ≤ b.length →
    xorBytes (xorBytes a b) b = a
  | [], _, _ => by simp [xorBytes]
  | x :: a, [], h => by simp at h
  | x :: a, y :: b, h => by
    have ih := xorBytes_cancel a b (by simpa using h)
    simp only [xorBytes, List.zipWith_cons_cons, List.cons.injEq] at ih ⊢
    exact ⟨Nat.xor_cancel_right y x, ih⟩

theorem padBlock_length (chunk : List Nat) (h : chunk.length ≤ blockSize) :
    (padBlock chunk).length = blockSize := by
  simp only [padBlock, List.length_append, List.length_replicate]
  omega

theorem padBlock_full (chunk : List Nat) (h : chunk.length = blockSize) :
    padBlock chunk = chunk := by
  simp [padBlock, h]

theorem fileRead_nil : fileRead [] = none := by
  simp [fileRead]

theorem fileRead_of_ne_nil (data : List Nat) (h : data ≠ []) :
    fileRead data = some (data.take blockSize, data.drop blockSize) := by
  simp [fileRead, h]

theorem encryptLoop_nil (c : Cipher) (key prev : List Nat) :
    encryptLoop c key prev [] = [] := by
  rw [encryptLoop]
  split
  · rfl
  · rename_i h
    simp [fileRead] at h

theorem encryptLoop_of_ne_nil (c : Cipher) (key prev data : List Nat) (h : data ≠ []) :
    encryptLoop c key prev data =
      c.encryptBlock key (xorBytes (padBlock (data.take blockSize)) prev) ++
        encryptLoop c key
          (c.encryptBlock key (xorBytes (padBlock (data.take blockSize)) prev))
          (data.drop blockSize) := by
  rw [encryptLoop]
  split
  · rename_i h1
    simp [fileRead, h] at h1
  · rename_i chunk rest h1
    simp only [fileRead, h, if_false, Option.some.injEq, Prod.mk.injEq] at h1
    obtain ⟨h2, h3⟩ := h1
    subst h2 h3
    rfl

theorem decryptLoop_nil (c : Cipher) (key prev : List Nat) :
    decryptLoop c key prev [] = [] := by
  rw [decryptLoop]
  split
  · rfl
  · rename_i h
    simp [fileRead] at h

theorem decryptLoop_of_ne_nil (c : Cipher) (key prev data : List Nat) (h : data ≠ []) :
    decryptLoop c key prev data =
      xorBytes (c.decryptBlock key (padBlock (data.take blockSize))) prev ++
        decryptLoop c key (padBlock (data.take blockSize)) (data.drop blockSize) := by
  rw [decryptLoop]
  split
  · rename_i h1
    simp [fileRead, h] at h1
  · rename_i chunk rest h1
    simp only [fileRead, h, if_false, Option.some.injEq, Prod.mk.injEq] at h1
    obtain ⟨h2, h3⟩ := h1
    subst h2 h3
    rfl

/-- Decrypting one full block followed by `rest`. -/
theorem decryptLoop_block (c : Cipher) (key prev block rest : List Nat)
    (hb : block.length = blockSize) :
    decryptLoop c key prev (block ++ rest) =
      xorBytes (c.decryptBlock key block) prev ++ decryptLoop c key block rest := by
  have hne : block ++ rest ≠ [] := by
    intro h
    have := congrArg List.length h
    simp [hb, blockSize] at this
  rw [decryptLoop_of_ne_nil c key prev _ hne]
  have ht : (block ++ rest).take blockSize = block := by
    rw [← hb]; exact List.take_left' rfl
  have hd : (block ++ rest).drop blockSize = rest := by
    rw [← hb]; exact List.drop_left' rfl
  rw [ht, hd, padBlock_full block hb]

/-- The number of bytes the encryption loop writes. -/
theorem encryptLoop_length (c : Cipher)
    (hlen : ∀ k x, x.length = blockSize → (c.encryptBlock k x).length = blockSize)
    (key : List Nat) : ∀ (n : Nat) (data prev : List Nat), data.length ≤ n →
      prev.length = blockSize →
      (encryptLoop c key prev data).length = (data.length + 15) / 16 * 16 := by
  intro n
  induction n with
  | zero =>
    intro data prev hn _
    have : data = [] := List.length_eq_zero.mp (Nat.le_zero.mp hn)
    subst this
    simp [encryptLoop_nil]
  | succ n ih =>
    intro data prev hn hp
    by_cases hd : data = []
    · subst hd
      simp [encryptLoop_nil]
    · have hpos : 0 < data.length := List.length_pos.mpr hd
      rw [encryptLoop_of_ne_nil c key prev data hd]
      have hpad : (padBlock (data.take blockSize)).length = blockSize :=
        padBlock_length _ (by simp [List.length_take])
      have hx : (xorBytes (padBlock (data.take blockSize)) prev).length = blockSize := by
        rw [xorBytes_length, hpad, hp]; simp
      have hout := hlen key _ hx
      have hrest : (data.drop blockSize).length ≤ n := by
        simp only [List.length_drop, blockSize]; omega
      rw [List.length_append, hout, ih _ _ hrest hout]
      simp only [List.length_drop, blockSize]
      omega

/-- Chained decryption undoes chained encryption, up to the zero fill of the
last block. -/
theorem decryptLoop_encryptLoop (c : Cipher)
    (hlen : ∀ k x, x.length = blockSize → (c.encryptBlock k x).length = blockSize)
    (hinv : ∀ k x, x.length = blockSize → c.decryptBlock k (c.encryptBlock k x) = x)
    (key : List Nat) : ∀ (n : Nat) (data prev : List Nat), data.length ≤ n →
      prev.length = blockSize →
      decryptLoop c key prev (encryptLoop c key prev data) =
        data ++ List.replicate ((16 - data.length % 16) % 16) 0 := by
  intro n
  induction n with
  | zero =>
    intro data prev hn _
    have : data = [] := List.length_eq_zero.mp (Nat.le_zero.mp hn)
    subst this
    simp [encryptLoop_nil, decryptLoop_nil]
  | succ n ih =>
    intro data prev hn hp
    by_cases hd : data = []
    · subst hd
      simp [encryptLoop_nil, decryptLoop_nil]
    · have hpos : 0 < data.length := List.length_pos.mpr hd
      rw [encryptLoop_of_ne_nil c key prev data hd]
      have hpad : (padBlock (data.take blockSize)).length = blockSize :=
        padBlock_length _ (by simp [List.length_take])
      have hx : (xorBytes (padBlock (data.take blockSize)) prev).length = blockSize := by
        rw [xorBytes_length, hpad, hp]; simp
      have hout := hlen key _ hx
      have hrest : (data.drop blockSize).length ≤ n := by
        simp only [List.length_drop, blockSize]; omega
      rw [decryptLoop_block c key prev _ _ hout, hinv key _ hx,
        xorBytes_cancel _ _ (by rw [hpad, hp]), ih _ _ hrest hout]
      by_cases hfull : blockSize ≤ data.length
      · have ht : (data.take blockSize).length = blockSize := by
          simp [List.length_take, hfull]
        rw [padBlock_full _ ht, ← List.append_assoc, List.take_append_drop]
        congr 2
        simp only [List.length_drop, blockSize] at hfull ⊢
        omega
      · have hlt : data.length < blockSize := Nat.lt_of_not_le hfull
        have ht : data.take blockSize = data := List.take_of_length_le (Nat.le_of_lt hlt)
        have hdr : data.drop blockSize = [] := List.drop_of_length_le (Nat.le_of_lt hlt)
        rw [ht, hdr]
        have he : (16 - data.length % 16) % 16 = blockSize - data.length := by
          simp only [blockSize] at hlt ⊢
          omega
        rw [he]
        simp [padBlock]

/-- C1. Round trip of the cipher engine: for every license id, IV and byte
sequence `b`, `AESEncryption` returns a ciphertext on which `AESDecryption`
under the same id returns `b` followed by `(16 - len b mod 16) mod 16` zero
bytes, for any block cipher whose decryption inverts its encryption. -/
theorem AESDecryption_AESEncryption (c : Cipher) (key : UUID) (iv rnd b : List Nat)
    (hiv : iv.length = blockSize) (hrnd : rnd.length = blockSize)
    (hlen : ∀ k x, x.length = blockSize → (c.encryptBlock k x).length = blockSize)
    (hinv : ∀ k x, x.length = blockSize → c.decryptBlock k (c.encryptBlock k x) = x) :
    ∃ ct, AESEncryption c key iv b true = .ok ct ∧
      AESDecryption c key rnd (some ct) true =
        .ok (b ++ List.replicate ((16 - b.length % 16) % 16) 0) := by
  refine ⟨iv ++ encryptLoop c (c.sha256 key) iv b, by simp [AESEncryption], ?_⟩
  have hne : iv ++ encryptLoop c (c.sha256 key) iv b ≠ [] := by
    intro h
    have := congrArg List.length h
    simp [hiv, blockSize] at this
  have ht : (iv ++ encryptLoop c (c.sha256 key) iv b).take blockSize = iv := by
    rw [← hiv]; exact List.take_left' rfl
  have hd : (iv ++ encryptLoop c (c.sha256 key) iv b).drop blockSize
      = encryptLoop c (c.sha256 key) iv b := by
    rw [← hiv]; exact List.drop_left' rfl
  have hdrop : rnd.drop iv.length = [] := List.drop_of_length_le (by rw [hiv, hrnd])
  simp only [AESDecryption, fileRead_of_ne_nil _ hne, ht, hd, hdrop, List.append_nil]
  by_cases hb : b = []
  · subst hb
    simp [encryptLoop_nil]
  · have hout : encryptLoop c (c.sha256 key) iv b ≠ [] := by
      intro h
      have h1 := encryptLoop_length c hlen (c.sha256 key) b.length b iv (Nat.le_refl _) hiv
      rw [h, List.length_nil] at h1
      have hpos : 0 < b.length := List.length_pos.mpr hb
      omega
    simp only [hout, if_false, Bool.not_true, Bool.false_eq_true]
    rw [decryptLoop_encryptLoop c hlen hinv (c.sha256 key) b.length b iv (Nat.le_refl _) hiv]

theorem exampleCipher_length (k x : List Nat) (h : x.length = blockSize) :
    (exampleCipher.encryptBlock k x).length = blockSize := by
  simp [exampleCipher, h]

theorem exampleCipher_inverse (k x : List Nat) :
    exampleCipher.decryptBlock k (exampleCipher.encryptBlock k x) = x := by
  simp only [exampleCipher, List.reverse_reverse, List.map_map]
  conv_rhs => rw [← List.map_id x]
  apply List.map_congr_left
  intro a _
  simp [Function.comp, Nat.xor_cancel_right]

/-- Witness of C1: the eleven bytes of `Hello world` under the example cipher. -/
theorem AESDecryption_AESEncryption_witness :
    sampleIV.length = blockSize ∧
    (∀ k x, x.length = blockSize → (exampleCipher.encryptBlock k x).length = blockSize) ∧
    (∀ k x, x.length = blockSize →
      exampleCipher.decryptBlock k (exampleCipher.encryptBlock k x) = x) ∧
    ∃ ct, AESEncryption exampleCipher 10 sampleIV helloWorld true = .ok ct ∧
      AESDecryption exampleCipher 10 sampleIV (some ct) true =
        .ok (helloWorld ++ List.replicate ((16 - helloWorld.length % 16) % 16) 0) :=
  ⟨by decide, exampleCipher_length, fun k x _ => exampleCipher_inverse k x,
    AESDecryption_AESEncryption exampleCipher 10 sampleIV sampleIV helloWorld
      (by decide) (by decide) exampleCipher_length
      (fun k x _ => exampleCipher_inverse k x)⟩

/-- C2. Size of the ciphertext: for every license id and every input of `n`
bytes, `AESEncryption` writes `16 + ceil(n / 16) * 16` bytes, the first 16 of
which are the generated IV. -/
theorem AESEncryption_length (c : Cipher) (key : UUID) (iv src : List Nat)
    (hiv : iv.length = blockSize)
    (hlen : ∀ k x, x.length = blockSize → (c.encryptBlock k x).length = blockSize) :
    ∃ out, AESEncryption c key iv src true = .ok out ∧
      out.length = 16 + (src.length + 15) / 16 * 16 ∧ out.take 16 = iv := by
  refine ⟨iv ++ encryptLoop c (c.sha256 key) iv src, by simp [AESEncryption], ?_, ?_⟩
  · rw [List.length_append, hiv,
      encryptLoop_length c hlen (c.sha256 key) src.length src iv (Nat.le_refl _) hiv]
    rfl
  · have h16 : iv.length = 16 := hiv
    rw [← h16]
    exact List.take_left' rfl

/-- Witness of C2: the 11-byte input `Hello world` gives 32 bytes, and the
empty input the 16 bytes of the IV. -/
theorem AESEncryption_length_witness :
    sampleIV.length = blockSize ∧
    (∀ k x, x.length = blockSize → (exampleCipher.encryptBlock k x).length = blockSize) ∧
    (∃ out, AESEncryption exampleCipher 10 sampleIV helloWorld true = .ok out ∧
      out.length = 32 ∧ out.take 16 = sampleIV) ∧
    (∃ out, AESEncryption exampleCipher 10 sampleIV [] true = .ok out ∧
      out.length = 16 ∧ out.take 16 = sampleIV) :=
  ⟨by decide, exampleCipher_length,
    AESEncryption_length exampleCipher 10 sampleIV helloWorld (by decide)
      exampleCipher_length,
    AESEncryption_length exampleCipher 10 sampleIV [] (by decide) exampleCipher_length⟩

/-! ## Theorems: the license store -/

theorem ValidateLicenseKey_fst (Licenses : UUID → Option License) (key : UUID)
    (now : Int) (l : License) (h : Licenses key = some l) :
    (ValidateLicenseKey Licenses key now).1 = l := by
  unfold ValidateLicenseKey
  rw [h]
  dsimp only
  split_ifs <;> rfl

theorem ValidateLicenseKey_usage (Licenses : UUID → Option License) (key : UUID)
    (now : Int) (l : License) (h : Licenses key = some l) (hty : l.Type_ = USAGE_LIMITED) :
    ValidateLicenseKey Licenses key now =
      (l, if l.TokensLeft ≤ 0 then some "License key expired" else none) := by
  have hne : ¬ (USAGE_LIMITED = TIME_BOUND) := by decide
  unfold ValidateLicenseKey
  rw [h]
  simp only [hty, hne, false_and, if_false, true_and]
  split_ifs <;> rfl

/-- A consuming operation under a usage-limited license with uses left is not
answered with the validation error. -/
theorem handle_not_exhausted (env : Env) (c : Cipher) (st : State) (key : UUID)
    (l : License) (req : Request) (hst : st.Licenses key = some l)
    (hty : l.Type_ = USAGE_LIMITED) (hpos : 0 < l.TokensLeft) (hreq : consumes env key req) :
    Reply.message 403 "License key expired" ∉ (handle env c st req).2 := by
  have hnle : ¬ l.TokensLeft ≤ 0 := by omega
  cases req with
  | encryptFile i =>
    obtain ⟨hb, hp, hf⟩ := hreq
    obtain ⟨fh, hfh⟩ := Option.isSome_iff_exists.mp hf
    simp only [handle, EncryptFile, hfh, hp, hb, ValidateLicenseKey_usage _ _ _ _ hst hty,
      hnle, if_false, if_true, List.nil_append, fileAttachment]
    intro hmem
    simp only [List.mem_append, List.mem_singleton] at hmem
    rcases hmem with (hm | hm) | hm
    · split at hm <;> simp at hm
    · split at hm <;> simp at hm
    · simp at hm
  | decryptFile i =>
    obtain ⟨h1, h2, hp⟩ := hreq
    simp only [handle, DecryptFile, hp, h1, h2, ValidateLicenseKey_usage _ _ _ _ hst hty,
      hnle, if_false, or_self, List.nil_append, fileAttachment]
    intro hmem
    simp only [List.mem_append, List.mem_singleton] at hmem
    rcases hmem with ((((hm | hm) | hm) | hm) | hm)
    · split at hm <;> simp at hm
    · split at hm <;> simp at hm
    · split at hm <;> simp at hm
    · split at hm <;> simp at hm
    · simp at hm
  | generateLicense i => exact absurd hreq id
  | generateSecureURL i => exact absurd hreq id
  | secureFileAccess i => exact absurd hreq id

/-- C4, as stated, fails at the boundary: `licenseA` expires at the instant
1000, and at `now = 1000` `ValidateLicenseKey` still succeeds. -/
theorem validate_time_bound_boundary_counterexample :
    ¬ (∀ (Licenses : UUID → Option License) (key : UUID) (l : License) (now : Int),
        Licenses key = some l → l.Type_ = TIME_BOUND → now ≥ l.ExpiryDate →
        (ValidateLicenseKey Licenses key now).2 = some "License key expired") := by
  intro h
  have h1 := h exampleState.Licenses 10 licenseA 1000 (by decide) (by decide) (by decide)
  revert h1
  decide

/-- C4, amended. For a stored time-bound license, `ValidateLicenseKey` returns
the stored record without error when `now ≤ expiresAt`, the boundary
included, and fails with `License key expired` when `now > expiresAt`. -/
theorem validate_time_bound (Licenses : UUID → Option License) (key : UUID) (l : License)
    (now : Int) (hst : Licenses key = some l) (hty : l.Type_ = TIME_BOUND) :
    (now ≤ l.ExpiryDate → ValidateLicenseKey Licenses key now = (l, none)) ∧
    (l.ExpiryDate < now →
      ValidateLicenseKey Licenses key now = (l, some "License key expired")) := by
  have hne : ¬ (TIME_BOUND = USAGE_LIMITED) := by decide
  constructor
  · intro hle
    have hs : ¬ timeSub l.ExpiryDate now < 0 := by
      unfold timeSub
      split_ifs <;> omega
    unfold ValidateLicenseKey
    rw [hst]
    simp only [hty, hne, hs, and_false, false_and, if_false]
  · intro hlt
    have hs : timeSub l.ExpiryDate now < 0 := by
      unfold timeSub
      split_ifs <;> omega
    unfold ValidateLicenseKey
    rw [hst]
    simp only [hty, hs, and_self, if_true]

/-- Witness of C4: `licenseA`, valid at the instants 999 and 1000, expired at
1001. -/
theorem validate_time_bound_witness :
    ValidateLicenseKey exampleState.Licenses 10 999 = (licenseA, none) ∧
    ValidateLicenseKey exampleState.Licenses 10 1000 = (licenseA, none) ∧
    ValidateLicenseKey exampleState.Licenses 10 1001
      = (licenseA, some "License key expired") :=
  ⟨(validate_time_bound exampleState.Licenses 10 licenseA 999 (by decide) (by decide)).1
      (by decide),
    (validate_time_bound exampleState.Licenses 10 licenseA 1000 (by decide) (by decide)).1
      (by decide),
    (validate_time_bound exampleState.Licenses 10 licenseA 1001 (by decide) (by decide)).2
      (by decide)⟩

/-! ## Theorems: handlers that go on after an error response -/

/-- C5, evaluated at the failing input. `report.enc` is bound to `licenseA`;
`licenseB` is valid on its own. `DecryptFile` presented with `keyB` answers
403 `Incorrect key`, and yet creates and writes `report.dec` and takes one
use off `licenseB`. -/
theorem DecryptFile_wrong_license_evaluation :
    exampleState.File "report.enc" = some 10 ∧
    ValidateLicenseKey exampleState.Licenses 11 500 = (licenseB, none) ∧
    sent (DecryptFile exampleEnv exampleCipher exampleState decryptRequest).2
      = some (Reply.message 403 "Incorrect key") ∧
    exampleState.disk "encrypted_files/report.dec" = none ∧
    ((DecryptFile exampleEnv exampleCipher exampleState decryptRequest).1.disk
      "encrypted_files/report.dec").isSome = true ∧
    (DecryptFile exampleEnv exampleCipher exampleState decryptRequest).1.Licenses 11
      = some { licenseB with TokensLeft := 1 } := by
  refine ⟨by decide, by decide, by decide, by decide, by decide, by decide⟩

/-- C6, evaluated at the failing input. From the empty store, a usage-limited
license of one use is issued and `EncryptFile` is requested twice with it: the
second request is answered 403, and leaves `TokensLeft = -1`. -/
theorem tokens_negative_evaluation :
    (run exampleEnv exampleCipher emptyState
        [Request.generateLicense singleUseRequest, Request.encryptFile encryptRequest,
         Request.encryptFile encryptRequest]).Licenses 11
      = some { Key := 11, Type_ := USAGE_LIMITED, ExpiryDate := zeroTime, TokensLeft := -1 } ∧
    sent (handle exampleEnv exampleCipher
        (run exampleEnv exampleCipher emptyState
          [Request.generateLicense singleUseRequest, Request.encryptFile encryptRequest])
        (Request.encryptFile encryptRequest)).2
      = some (Reply.message 403 "License key expired") := by
  refine ⟨by decide, by decide⟩

/-- C7, evaluated at the failing input. The request of `TestInvalidLicenseType`
is answered 400, and yet a license of the unsupported kind `time` is added to
the store. -/
theorem GenerateLicense_invalid_type_evaluation :
    (sent (GenerateLicense exampleEnv emptyState invalidTypeRequest).2).map Reply.status
      = some 400 ∧
    emptyState.Licenses 12 = none ∧
    (GenerateLicense exampleEnv emptyState invalidTypeRequest).1.Licenses 12
      = some { Key := 12, Type_ := "time", ExpiryDate := zeroTime, TokensLeft := 7 } := by
  refine ⟨by decide, by decide, by decide⟩

/-! ## Theorems: issuing licenses, binding artifacts, redeeming links -/

/-- C9. An `EncryptFile` that reaches its end under the license id `L` leaves
the registry mapping the stored artifact name (the original name with its
extension replaced by `.enc`) to `L`, whatever was bound to that name before,
and leaves the bindings of all other names unchanged. -/
theorem EncryptFile_binding (env : Env) (c : Cipher) (st : State) (i : EncryptFileInput)
    (fh : FileHeader) (L : UUID) (hfile : i.File = some fh)
    (hparse : env.uuidParse i.LicenseKey = (L, true)) :
    (EncryptFile env c st i).1.File (TrimSuffix fh.Filename (Ext fh.Filename) ++ ".enc")
      = some L ∧
    ∀ name, name ≠ TrimSuffix fh.Filename (Ext fh.Filename) ++ ".enc" →
      (EncryptFile env c st i).1.File name = st.File name := by
  constructor
  · simp [EncryptFile, hfile, hparse, mapSet]
  · intro name hname
    simp [EncryptFile, hfile, hparse, mapSet, hname]

/-- Witness of C9: `testfile.txt` encrypted under `keyB` is bound as
`testfile.enc` and the binding of `report.enc` stays; `report.txt` encrypted
under `keyB` takes the binding of `report.enc` over from `licenseA`. -/
theorem EncryptFile_binding_witness :
    TrimSuffix "testfile.txt" (Ext "testfile.txt") ++ ".enc" = "testfile.enc" ∧
    (EncryptFile exampleEnv exampleCipher exampleState encryptRequest).1.File
      "testfile.enc" = some 11 ∧
    (EncryptFile exampleEnv exampleCipher exampleState encryptRequest).1.File
      "report.enc" = exampleState.File "report.enc" ∧
    exampleState.File "report.enc" = some 10 ∧
    (EncryptFile exampleEnv exampleCipher exampleState overwriteRequest).1.File
      "report.enc" = some 11 :=
  ⟨by decide,
    (EncryptFile_binding exampleEnv exampleCipher exampleState encryptRequest
      { Filename := "testfile.txt", content := helloWorld } 11 rfl (by decide)).1,
    (EncryptFile_binding exampleEnv exampleCipher exampleState encryptRequest
      { Filename := "testfile.txt", content := helloWorld } 11 rfl (by decide)).2
      "report.enc" (by decide),
    by decide,
    (EncryptFile_binding exampleEnv exampleCipher exampleState overwriteRequest
      { Filename := "report.txt", content := helloWorld } 11 rfl (by decide)).1⟩

/-- C10, as stated, fails at the boundary: a link expiring at the Unix second 2
and redeemed at that very second is not refused as expired, the client is
redirected to `decrypt-file`. -/
theorem SecureFileAccess_boundary_counterexample :
    ¬ (∀ (env : Env) (st : State) (i : SecureFileAccessInput) (expiresAt : Int),
        i.licensekey ≠ "" → i.filepath ≠ "" → i.expires ≠ "" →
        env.parseInt i.expires = (expiresAt, true) → unix i.now ≥ expiresAt →
        sent (SecureFileAccess env st i).2
          = some (Reply.message 401 "Link Expired. Please request new one.")) := by
  intro h
  have h1 := h exampleEnv exampleState (linkRequest 2000000000) 2 (by decide) (by decide)
    (by decide) (by decide) (by decide)
  revert h1
  decide

/-- C10, amended. For a link with all three fields present and a readable
expiry timestamp `expiresAt`: when the Unix second of `now` is strictly after
`expiresAt`, the response sent is 401 `Link Expired` and no redirect to
`decrypt-file`; when it is at or before `expiresAt`, the boundary included,
no `Link Expired` response is written. -/
theorem SecureFileAccess_expiry (env : Env) (st : State) (i : SecureFileAccessInput)
    (expiresAt : Int) (h1 : i.licensekey ≠ "") (h2 : i.filepath ≠ "") (h3 : i.expires ≠ "")
    (hparse : env.parseInt i.expires = (expiresAt, true)) :
    (unix i.now > expiresAt →
      sent (SecureFileAccess env st i).2
          = some (Reply.message 401 "Link Expired. Please request new one.") ∧
      ∀ location, sent (SecureFileAccess env st i).2 ≠ some (Reply.redirect 302 location)) ∧
    (unix i.now ≤ expiresAt →
      Reply.message 401 "Link Expired. Please request new one."
        ∉ (SecureFileAccess env st i).2) := by
  constructor
  · intro hgt
    have hs : sent (SecureFileAccess env st i).2
        = some (Reply.message 401 "Link Expired. Please request new one.") := by
      simp [SecureFileAccess, sent, h1, h2, h3, hparse, hgt]
    refine ⟨hs, ?_⟩
    intro location hloc
    rw [hs] at hloc
    exact Reply.noConfusion (Option.some.inj hloc)
  · intro hle
    have hng : ¬ unix i.now > expiresAt := by omega
    simp only [SecureFileAccess, h1, h2, h3, hparse, hng, or_self, if_false, if_true,
      List.nil_append]
    intro hmem
    simp only [List.mem_append, List.mem_singleton] at hmem
    rcases hmem with (hm | hm) | hm
    · split at hm <;> simp at hm
    · split at hm
      · simp only [List.mem_singleton, Reply.message.injEq, true_and] at hm
        rename_i e he
        have hv := he
        unfold ValidateLicenseKey at hv
        split at hv
        · simp only [Option.some.injEq] at hv
          rw [← hv] at hm
          revert hm
          decide
        · split_ifs at hv <;> simp only [Option.some.injEq] at hv
          · rw [← hv] at hm
            revert hm
            decide
          · rw [← hv] at hm
            revert hm
            decide
      · simp at hm
    · simp at hm

/-- Witness of C10: a link expiring at the Unix second 2, redeemed one
nanosecond before second 3 and at second 3. -/
theorem SecureFileAccess_expiry_witness :
    Reply.message 401 "Link Expired. Please request new one."
        ∉ (SecureFileAccess exampleEnv exampleState (linkRequest 2999999999)).2 ∧
    sent (SecureFileAccess exampleEnv exampleState (linkRequest 3000000000)).2
        = some (Reply.message 401 "Link Expired. Please request new one.") :=
  ⟨(SecureFileAccess_expiry exampleEnv exampleState (linkRequest 2999999999) 2
      (by decide) (by decide) (by decide) (by decide)).2 (by decide),
    ((SecureFileAccess_expiry exampleEnv exampleState (linkRequest 3000000000) 2
      (by decide) (by decide) (by decide) (by decide)).1 (by decide)).1⟩

/-! ## Theorems: secure links and licenses of an unrecognized kind -/

/-- Whatever the checks said, `GenerateSecureURL` ends by writing the link with
status 201. -/
theorem GenerateSecureURL_writes_link (env : Env) (st : State)
    (i : GenerateSecureURLInput) :
    (GenerateSecureURL env st i).2.getLast? =
      some (Reply.link 201
        ("http://localhost:3000/sles/api/v1/secure-file?licensekey="
          ++ i.reqBody.LicenseKey ++ "&filepath=" ++ i.reqBody.FilePath
          ++ "&expires=" ++ toString (unix (i.now2 + 3600000000000)))) := by
  simp only [GenerateSecureURL, List.getLast?_append, List.getLast?_singleton]
  rfl

/-- For a request with both fields present and a readable license key, the
link is the whole response when the license passes `ValidateLicenseKey`;
when it does not, the response sent is the validation error, status 403. -/
theorem GenerateSecureURL_by_validity (env : Env) (st : State)
    (i : GenerateSecureURLInput) (key : UUID) (hbind : i.bindErr = false)
    (h1 : i.reqBody.LicenseKey ≠ "") (h2 : i.reqBody.FilePath ≠ "")
    (hparse : env.uuidParse i.reqBody.LicenseKey = (key, true)) :
    ((ValidateLicenseKey st.Licenses key i.now).2 = none →
      (GenerateSecureURL env st i).2 =
        [Reply.link 201
          ("http://localhost:3000/sles/api/v1/secure-file?licensekey="
            ++ i.reqBody.LicenseKey ++ "&filepath=" ++ i.reqBody.FilePath
            ++ "&expires=" ++ toString (unix (i.now2 + 3600000000000)))]) ∧
    (∀ e, (ValidateLicenseKey st.Licenses key i.now).2 = some e →
      sent (GenerateSecureURL env st i).2 = some (Reply.message 403 e)) := by
  constructor
  · intro hv
    simp [GenerateSecureURL, hbind, h1, h2, hparse, hv]
  · intro e hv
    simp [GenerateSecureURL, sent, hbind, h1, h2, hparse, hv]

/-- C11, evaluated at the failing inputs. For an identifier the store does not
hold, and for the expired `licenseA`, `GenerateSecureURL` answers 403 with the
validation error and then still writes the link, whose body follows the error
in the response. -/
theorem GenerateSecureURL_invalid_license_evaluation :
    (ValidateLicenseKey emptyState.Licenses 10 500).2 = some "License key doesn't exist" ∧
    (GenerateSecureURL exampleEnv emptyState (urlRequest "testfile.enc" 500)).2
      = [Reply.message 403 "License key doesn't exist",
         Reply.link 201 ("http://localhost:3000/sles/api/v1/secure-file?licensekey="
           ++ keyA ++ "&filepath=testfile.enc&expires=3600")] ∧
    (ValidateLicenseKey exampleState.Licenses 10 2000).2 = some "License key expired" ∧
    (GenerateSecureURL exampleEnv exampleState (urlRequest "report.enc" 2000)).2
      = [Reply.message 403 "License key expired",
         Reply.link 201 ("http://localhost:3000/sles/api/v1/secure-file?licensekey="
           ++ keyA ++ "&filepath=report.enc&expires=3600")] := by
  refine ⟨by decide, by decide, by decide, by decide⟩

/-- A license whose kind is neither constant passes `ValidateLicenseKey`. -/
theorem ValidateLicenseKey_unrecognized (Licenses : UUID → Option License) (key : UUID)
    (now : Int) (l : License) (hst : Licenses key = some l)
    (h1 : l.Type_ ≠ TIME_BOUND) (h2 : l.Type_ ≠ USAGE_LIMITED) :
    ValidateLicenseKey Licenses key now = (l, none) := by
  unfold ValidateLicenseKey
  rw [hst]
  simp only [h1, h2, false_and, if_false]

/-- The token bookkeeping of `EncryptFile` and `DecryptFile` leaves a license
of an unrecognized kind as it is, whichever key the request carries. -/
theorem consume_keeps (st : State) (key k : UUID) (now : Int) (l : License)
    (hst : st.Licenses key = some l) (h2 : l.Type_ ≠ USAGE_LIMITED) :
    (if (ValidateLicenseKey st.Licenses k now).1.Type_ = USAGE_LIMITED then
        mapSet st.Licenses k
          { (ValidateLicenseKey st.Licenses k now).1 with
            TokensLeft := wrap64 ((ValidateLicenseKey st.Licenses k now).1.TokensLeft - 1) }
      else st.Licenses) key = some l := by
  by_cases hk : k = key
  · subst hk
    rw [ValidateLicenseKey_fst _ _ _ _ hst]
    simp only [h2, if_false, hst]
  · have hkey : ¬ key = k := fun h => hk h.symm
    split
    · simp only [mapSet, hkey, if_false, hst]
    · exact hst

/-- Every request but a `GenerateLicense` drawing the same identifier leaves a
license of an unrecognized kind as it is. -/
theorem handle_keeps (env : Env) (c : Cipher) (st : State) (key : UUID) (l : License)
    (req : Request) (hst : st.Licenses key = some l) (h2 : l.Type_ ≠ USAGE_LIMITED)
    (hreq : keepsLicense key req) :
    (handle env c st req).1.Licenses key = some l := by
  cases req with
  | generateLicense i =>
    have hne : ¬ key = i.newKey := fun h => hreq h.symm
    simp only [handle, GenerateLicense, mapSet]
    split <;> simp only [hne, if_false, hst]
  | encryptFile i =>
    simp only [handle, EncryptFile]
    cases hf : i.File with
    | none => exact hst
    | some fh => exact consume_keeps st key _ i.now l hst h2
  | decryptFile i => exact consume_keeps st key _ i.now l hst h2
  | generateSecureURL i => exact hst
  | secureFileAccess i => exact hst

theorem run_keeps (env : Env) (c : Cipher) (key : UUID) (l : License)
    (h2 : l.Type_ ≠ USAGE_LIMITED) :
    ∀ (reqs : List Request) (st : State), st.Licenses key = some l →
      (∀ r ∈ reqs, keepsLicense key r) → (run env c st reqs).Licenses key = some l := by
  intro reqs
  induction reqs with
  | nil => intro st hst _; exact hst
  | cons r rs ih =>
    intro st hst hreqs
    exact ih _ (handle_keeps env c st key l r hst h2 (hreqs r (List.mem_cons_self _ _)))
      (fun q hq => hreqs q (List.mem_cons_of_mem _ hq))

/-- C12. A stored license whose `Type` is neither `time-bound` nor
`usage-limited` passes `ValidateLicenseKey` at every time and with every
`TokensLeft`; no `EncryptFile` and no `DecryptFile` changes its record, and
after any sequence of requests that does not draw its identifier anew it is
stored unchanged and still valid: it never expires and is never exhausted. -/
theorem unrecognized_type_never_expires (env : Env) (c : Cipher) (st : State) (key : UUID)
    (l : License) (reqs : List Request) (now : Int)
    (hst : st.Licenses key = some l)
    (h1 : l.Type_ ≠ TIME_BOUND) (h2 : l.Type_ ≠ USAGE_LIMITED)
    (hreqs : ∀ r ∈ reqs, keepsLicense key r) :
    ValidateLicenseKey st.Licenses key now = (l, none) ∧
    (∀ i, (EncryptFile env c st i).1.Licenses key = some l) ∧
    (∀ i, (DecryptFile env c st i).1.Licenses key = some l) ∧
    (run env c st reqs).Licenses key = some l ∧
    ValidateLicenseKey (run env c st reqs).Licenses key now = (l, none) := by
  have hrun := run_keeps env c key l h2 reqs st hst hreqs
  exact ⟨ValidateLicenseKey_unrecognized _ key now l hst h1 h2,
    fun i => handle_keeps env c st key l (Request.encryptFile i) hst h2 trivial,
    fun i => handle_keeps env c st key l (Request.decryptFile i) hst h2 trivial,
    hrun, ValidateLicenseKey_unrecognized _ key now l hrun h1 h2⟩

/-- Witness of C12: the license of kind `time` that `invalidTypeRequest`
leaves in the store, used for an encryption and a decryption. -/
theorem unrecognized_type_never_expires_witness :
    oddState.Licenses 12 = some oddLicense ∧
    ValidateLicenseKey oddState.Licenses 12 4102444800000000000 = (oddLicense, none) ∧
    (EncryptFile exampleEnv exampleCipher oddState oddEncryptRequest).1.Licenses 12
      = some oddLicense ∧
    (DecryptFile exampleEnv exampleCipher oddState oddDecryptRequest).1.Licenses 12
      = some oddLicense ∧
    ValidateLicenseKey
      (run exampleEnv exampleCipher oddState
        [Request.encryptFile oddEncryptRequest, Request.decryptFile oddDecryptRequest]).Licenses
      12 4102444800000000000 = (oddLicense, none) := by
  have h := unrecognized_type_never_expires exampleEnv exampleCipher oddState 12 oddLicense
    [Request.encryptFile oddEncryptRequest, Request.decryptFile oddDecryptRequest]
    4102444800000000000 (by decide) (by decide) (by decide)
    (by
      intro r hr
      simp only [List.mem_cons, List.mem_singleton, List.not_mem_nil, or_false] at hr
      rcases hr with rfl | rfl
      · exact trivial
      · exact trivial)
  exact ⟨by decide, h.1, h.2.1 oddEncryptRequest, h.2.2.1 oddDecryptRequest, h.2.2.2.2⟩

end LicenseService
